import Mathlib

/-!
Verification development for the audio spectrogram batch plotter
(`src/audio_task.py` and `src/audio_task/audio_task.py`).

The repository's own code is the loading/plotting/menu glue; the numeric
pipeline (validation, STFT, decibel conversion, note axis) is delegated to
the external `librosa` library, whose code is not part of the repository.
Glue code is embedded directly from the source; the library components are
modelled from the specification (sections 4.1-4.4), each such definition
marked `Modelled from the spec:` in its doc comment.
-/

/-- A decoded audio sample as produced by the decoding collaborator.  Python
floats may be NaN or infinite; finite values are modelled as rationals so
that validation is decidable. -/
inductive PySample where
  | fin (x : ℚ)
  | nan
  | inf
  | ninf
deriving DecidableEq, Repr

/-- Finiteness test on a sample (`numpy.isfinite`). -/
def PySample.isFinite : PySample → Bool
  | .fin _ => true
  | _ => false

/-- Real value of a sample; non-finite samples get a junk value of 0.  The
pipeline only applies this to samples that passed the finiteness check. -/
noncomputable def PySample.toReal : PySample → ℝ
  | .fin x => (x : ℝ)
  | _ => 0

/-- A loaded sound: the decoded sample buffer and its sample rate, the pair
returned by the decoding collaborator. -/
abbrev Sound := List PySample × ℕ

/-- The file-format whitelist `SUPPORTED_FORMATS` from the source
(src/audio_task/audio_task.py lines 17-42, identical in src/audio_task.py). -/
def SUPPORTED_FORMATS : List String :=
  ["aiff", "au", "avr", "caf", "flac", "htk", "svx", "mat4", "mat5",
   "mpc2k", "mp3", "ogg", "paf", "pvf", "raw", "rf64", "sd2", "sds",
   "ircam", "voc", "w64", "wav", "nist", "wavex", "wve", "xi"]

/-- ASCII lower-casing of a string (Python `str.lower` on the extension). -/
def strToLower (s : String) : String := String.mk (s.data.map Char.toLower)

/-- Index of the last occurrence of `c` in `l`, if any (Python `str.rfind`). -/
def lastIdxOf (c : Char) : List Char → Option ℕ
  | [] => none
  | a :: t =>
    match lastIdxOf c t with
    | some i => some (i + 1)
    | none => if a = c then some 0 else none

/-- The final component of a POSIX path: everything after the last slash. -/
def baseNameChars (l : List Char) : List Char :=
  match lastIdxOf '/' l with
  | some i => l.drop (i + 1)
  | none => l

/-- The extension of a path without its dot, following Python
`os.path.splitext(p)[1][1:]` on POSIX: the part after the last dot of the
final path component, unless every character of the component before that
dot is itself a dot (so dotfiles such as `.bashrc` have no extension). -/
def splitextExt (p : String) : String :=
  let base := baseNameChars p.data
  match lastIdxOf '.' base with
  | some i =>
    if (base.take i).any (fun ch => ch ≠ '.') then String.mk (base.drop (i + 1))
    else ""
  | none => ""

/-- POSIX `os.path.join` for the two-argument call used by the source: an
absolute second argument wins, otherwise the parts are joined with a slash
unless the directory already ends in one. -/
def joinPath (dir p : String) : String :=
  if p.data.head? = some '/' then p
  else if dir = "" then p
  else if dir.data.getLast? = some '/' then dir ++ p
  else dir ++ "/" ++ p

/-- Whether the extension of `fullPath`, lower-cased, is in the whitelist
(`file_format.lower() in SUPPORTED_FORMATS`). -/
def extSupported (fullPath : String) : Bool :=
  SUPPORTED_FORMATS.contains (strToLower (splitextExt fullPath))

/-- The external collaborators, treated as an abstract environment:
`os.path.exists` and `librosa.load` (a decode either yields the pair
`(samples, sample_rate)` or fails with a message). -/
structure Env where
  pathExists : String → Bool
  decode : String → Except String Sound

/-- Observable per-file events of the load loop: the two skip diagnostics,
the invocation of the decoder, and a decode failure diagnostic. -/
inductive LoadEvent where
  | skipMissing (fullPath : String)
  | skipUnsupported (fullPath : String)
  | decodeAttempt (fullPath : String)
  | decodeFailed (fullPath : String) (msg : String)
deriving DecidableEq, Repr

/-- Whether an event is one of the two skip diagnostics
(`... does not exist. Skipping...` / `Unsupported file format ... Skipping...`). -/
def LoadEvent.isSkipDiag : LoadEvent → Bool
  | .skipMissing _ => true
  | .skipUnsupported _ => true
  | _ => false

/-- One iteration of the body of `load_audio_files`
(src/audio_task/audio_task.py lines 70-82, identical in src/audio_task.py
lines 49-61): existence check, extension check, then decode with the
exception caught and printed. -/
def processFile (env : Env) (directory fp : String) : Option Sound × List LoadEvent :=
  let fullPath := joinPath directory fp
  if env.pathExists fullPath then
    if extSupported fullPath then
      match env.decode fullPath with
      | .ok s => (some s, [.decodeAttempt fullPath])
      | .error e => (none, [.decodeAttempt fullPath, .decodeFailed fullPath e])
    else (none, [.skipUnsupported fullPath])
  else (none, [.skipMissing fullPath])

namespace AudioTaskPkg

/-- `tqdm` progress wrapper: iteration order and contents are unchanged. -/
def tqdm (l : List α) : List α := l

/-- The loop of `load_audio_files` over the remaining file paths. -/
def loadLoop (env : Env) (directory : String) : List String → List Sound × List LoadEvent
  | [] => ([], [])
  | fp :: rest =>
    let r := processFile env directory fp
    let t := loadLoop env directory rest
    (r.1.toList ++ t.1, r.2 ++ t.2)

/-- `load_audio_files` from src/audio_task/audio_task.py (lines 52-83). -/
def load_audio_files (env : Env) (directory : String) (file_paths : List String) :
    List Sound × List LoadEvent :=
  loadLoop env directory (tqdm file_paths)

end AudioTaskPkg

namespace AudioTaskRoot

/-- The loop of `load_audio_files` over the remaining file paths
(src/audio_task.py, no progress wrapper). -/
def loadLoop (env : Env) (directory : String) : List String → List Sound × List LoadEvent
  | [] => ([], [])
  | fp :: rest =>
    let r := processFile env directory fp
    let t := loadLoop env directory rest
    (r.1.toList ++ t.1, r.2 ++ t.2)

/-- `load_audio_files` from src/audio_task.py (lines 37-62). -/
def load_audio_files (env : Env) (directory : String) (file_paths : List String) :
    List Sound × List LoadEvent :=
  loadLoop env directory file_paths

end AudioTaskRoot

/-- The load loop instrumented with the zero-based request index of each
successfully loaded file, to track which requested file each loaded sound
came from. -/
def loadIdxAux (env : Env) (directory : String) : ℕ → List String → List (ℕ × Sound)
  | _, [] => []
  | k, fp :: rest =>
    match (processFile env directory fp).1 with
    | some s => (k, s) :: loadIdxAux env directory (k + 1) rest
    | none => loadIdxAux env directory (k + 1) rest

/-- Origin-instrumented view of `load_audio_files`: the loaded sounds paired
with the index of the requested file they were decoded from. -/
def loadIdx (env : Env) (directory : String) (paths : List String) : List (ℕ × Sound) :=
  loadIdxAux env directory 0 paths

/-- Modelled from the spec: `librosa.util.valid_audio`, the validation step
of section 4.1, is external library code not present in the repository.
Rules from the spec: reject an empty sample sequence, any non-finite sample,
and (unless the caller explicitly allows silent input) an all-zero sample
sequence. -/
def valid_audio (allowSilent : Bool) (y : List PySample) : Bool :=
  !y.isEmpty && y.all PySample.isFinite &&
    (allowSilent || y.any (fun s => s ≠ PySample.fin 0))

/-- What a plotting call produced: the (name, sound) pairs rendered, in
order, and the message of the `AudioDataNotValid` error if one was raised. -/
structure PlotOutcome where
  rendered : List (String × Sound)
  error : Option String
deriving DecidableEq, Repr

/-- The loop of `plot_spectogram_hz` (src/audio_task/audio_task.py lines
98-111): each (name, sound) pair of the zip is rendered if validation
passes; otherwise `AudioDataNotValid` is raised, which ends the loop and
leaves the remaining pairs unprocessed. -/
def plotLoopHz : List (String × Sound) → PlotOutcome
  | [] => ⟨[], none⟩
  | (nm, s) :: rest =>
    if valid_audio false s.1 then
      let r := plotLoopHz rest
      ⟨(nm, s) :: r.rendered, r.error⟩
    else ⟨[], some ("Invalid audio data for " ++ nm)⟩

/-- `plot_spectogram_hz` from src/audio_task/audio_task.py (lines 86-112):
names and sounds are paired positionally by `zip`. -/
def plot_spectogram_hz (sound_names : List String) (raw_sounds : List Sound) : PlotOutcome :=
  plotLoopHz (sound_names.zip raw_sounds)

/-- The loop of `plot_spectogram_note_scale` (src/audio_task/audio_task.py
lines 126-138), structurally identical to the Hz loop but rendering on the
note axis. -/
def plotLoopNote : List (String × Sound) → PlotOutcome
  | [] => ⟨[], none⟩
  | (nm, s) :: rest =>
    if valid_audio false s.1 then
      let r := plotLoopNote rest
      ⟨(nm, s) :: r.rendered, r.error⟩
    else ⟨[], some ("Invalid audio data for " ++ nm)⟩

/-- `plot_spectogram_note_scale` from src/audio_task/audio_task.py (lines
115-139). -/
def plot_spectogram_note_scale (sound_names : List String) (raw_sounds : List Sound) :
    PlotOutcome :=
  plotLoopNote (sound_names.zip raw_sounds)

/-- `sound_names = [f'Sound {i}' for i in sound_file_paths]` from `main`
(src/audio_task/audio_task.py line 159): one label per requested file. -/
def mkSoundNames (paths : List String) : List String :=
  paths.map (fun p => "Sound " ++ p)

/-- Outcome of the import block at the top of src/audio_task/audio_task.py
(lines 1-14). -/
inductive StartupResult where
  | ok
  | importFailure (msg : String)

/-- How a run of `main` ends: normal return, a keyboard interrupt, or an
uncaught error propagating out (Python then exits with status 1). -/
inductive MainOutcome where
  | finished
  | interrupted
  | uncaughtError

/-- Exit status of the process, from the source's top-level control flow:
the import guard calls `sys.exit(1)` on `ImportError` (lines 12-14), and the
`__main__` guard catches `KeyboardInterrupt` and calls `sys.exit(0)`
(lines 181-186); a normal return exits 0, an uncaught error exits 1. -/
def runProgram : StartupResult → MainOutcome → ℕ
  | .importFailure _, _ => 1
  | .ok, .finished => 0
  | .ok, .interrupted => 0
  | .ok, .uncaughtError => 1

/-- Modelled from the spec: section 4.2 framing — slide a window of length
`frameSize` with step `hop` over the samples; the final incomplete frame is
zero-padded to full length. -/
def frames (frameSize hop : ℕ) (x : List ℝ) : List (List ℝ) :=
  (List.range ((x.length + hop - 1) / hop)).map
    (fun i => ((x.drop (i * hop)) ++ List.replicate frameSize 0).take frameSize)

/-- Modelled from the spec: section 4.2 — each frame is multiplied
element-wise by an analysis window function. -/
def windowedFrame (w : ℕ → ℝ) (frame : List ℝ) : List ℝ :=
  (List.range frame.length).zipWith (fun k a => w k * a) frame

/-- Modelled from the spec: the Hann analysis window, the example window of
section 4.2. -/
noncomputable def hann (frameSize k : ℕ) : ℝ :=
  1 / 2 - 1 / 2 * Real.cos (2 * Real.pi * k / frameSize)

/-- Modelled from the spec: section 4.3 — discrete Fourier transform of one
frame. -/
noncomputable def dft (v : List ℝ) : List ℂ :=
  (List.range v.length).map (fun k =>
    ∑ t in Finset.range v.length,
      ((v.getD t 0 : ℝ) : ℂ) * Complex.exp (-2 * Real.pi * Complex.I * k * t / v.length))

/-- Modelled from the spec: section 4.3 — magnitudes of the non-redundant
half of the bins (0 .. frameSize/2), one row per time frame. -/
noncomputable def stftMag (frameSize hop : ℕ) (w : ℕ → ℝ) (x : List ℝ) : List (List ℝ) :=
  (frames frameSize hop x).map
    (fun f => ((dft (windowedFrame w f)).take (frameSize / 2 + 1)).map Complex.abs)

/-- Peak magnitude over the whole matrix (the single global reference of
section 4.3). -/
noncomputable def maxMag (m : List (List ℝ)) : ℝ := m.flatten.foldr max 0

/-- The configured decibel floor of section 4.3. -/
def dbFloor : ℝ := -80

/-- Modelled from the spec: section 4.3's "small positive epsilon" used as
the reference for all-silent input. -/
noncomputable def epsilonRef : ℝ := 1 / 10 ^ 10

/-- Decibel value of one magnitude before flooring, on the extended reals:
`20 * log10 (m / ref)`, with `⊥` (minus infinity) for a zero magnitude. -/
noncomputable def rawDb (m ref : ℝ) : EReal :=
  if m ≤ 0 then ⊥ else ((20 * Real.logb 10 (m / ref) : ℝ) : EReal)

/-- Modelled from the spec: section 4.3 flooring — clamp below at `dbFloor`,
so no computed value is minus infinity. -/
noncomputable def dbEntry (m ref : ℝ) : EReal := max ((dbFloor : ℝ) : EReal) (rawDb m ref)

/-- The decibel matrix together with the reference magnitude that was used
and whether the input was degenerate (all frames silent). -/
structure SpectrogramMatrix where
  entries : List (List EReal)
  reference : ℝ
  degenerate : Prop

/-- The reference magnitude of section 4.3: the global peak, or the small
positive epsilon when all frames are silent. -/
noncomputable def specRef (frameSize hop : ℕ) (w : ℕ → ℝ) (x : List ℝ) : ℝ :=
  if maxMag (stftMag frameSize hop w x) = 0 then epsilonRef
  else maxMag (stftMag frameSize hop w x)

/-- Modelled from the spec: section 4.3 `SpectrogramEngine.compute` —
peak-relative decibel conversion with a single global reference, epsilon
substitution and a degenerate report when all frames are silent. -/
noncomputable def computeSpectrogram (frameSize hop : ℕ) (w : ℕ → ℝ) (x : List ℝ) :
    SpectrogramMatrix :=
  ⟨(stftMag frameSize hop w x).map
     (fun row => row.map (fun m => dbEntry m (specRef frameSize hop w x))),
   specRef frameSize hop w x,
   maxMag (stftMag frameSize hop w x) = 0⟩

/-- The fixed 12-tone equal-temperament table of section 4.4. -/
def NOTE_NAMES : List String :=
  ["C", "C#", "D"] ++ ["D#", "E", "F"] ++ ["F#", "G", "G#"] ++ ["A", "A#", "B"]

/-- Modelled from the spec: section 4.4 MIDI-like note number
`69 + 12*log2(f/440)` (A4 = 440 Hz reference). -/
noncomputable def noteNumber (f : ℝ) : ℝ := 69 + 12 * Real.logb 2 (f / 440)

/-- Name of the integer note `m` in the fixed table, e.g. `69 ↦ "A4"`. -/
def noteName (m : ℤ) : String :=
  NOTE_NAMES.getD (m % 12).toNat "" ++ toString (m / 12 - 1)

/-- A bin label on the note axis: either the sentinel for the 0 Hz bin or a
note name with a signed cents offset. -/
inductive NoteLabel where
  | sentinel
  | note (name : String) (cents : ℝ)

/-- Display text of a note label; the sentinel is shown as "—". -/
def NoteLabel.display : NoteLabel → String
  | .sentinel => "—"
  | .note n _ => n

/-- Modelled from the spec: section 4.4 note mode — round the note number to
the nearest integer note and clamp the cents offset to [-50, 50]. -/
noncomputable def hzToNote (f : ℝ) : NoteLabel :=
  let raw := noteNumber f
  let r := round raw
  .note (noteName r) (min 50 (max (-50) (100 * (raw - (r : ℝ)))))

/-- Modelled from the spec: section 4.4 — Hz value of bin `k`,
`k * sample_rate / frame_size`. -/
noncomputable def binHz (frameSize sampleRate k : ℕ) : ℝ :=
  (k : ℝ) * sampleRate / frameSize

/-- Modelled from the spec: section 4.4 — bin-to-label mapping in note mode;
bin 0 gets the sentinel and `log2` is never taken at 0. -/
noncomputable def mapBinNote (frameSize sampleRate k : ℕ) : NoteLabel :=
  if k = 0 then .sentinel else hzToNote (binHz frameSize sampleRate k)

/-- Modelled from the spec: section 4.4 `map_bins` in note mode over all
bins, with `frame_size = 2 * (num_bins - 1)`. -/
noncomputable def mapBinsNote (numBins sampleRate : ℕ) : List NoteLabel :=
  (List.range numBins).map (mapBinNote (2 * (numBins - 1)) sampleRate)

/-- A concrete environment used to evaluate the theorems on concrete inputs:
under directory `d`, `a.wav` is missing, `b.xyz` exists but has an
unsupported extension, and `c.wav` and `e.wav` exist and decode
successfully. -/
def envW : Env :=
  ⟨fun q => q == "d/b.xyz" || q == "d/c.wav" || q == "d/e.wav",
   fun q =>
     if q == "d/c.wav" then Except.ok ([PySample.fin 1], 22050)
     else if q == "d/e.wav" then Except.ok ([PySample.fin 2], 22050)
     else Except.error "decode failure"⟩

/-! ### Helper lemmas about the load loop -/

theorem AudioTaskPkg.loadLoop_fst (env : Env) (dir : String) (ps : List String) :
    (AudioTaskPkg.loadLoop env dir ps).1 = ps.filterMap (fun p => (processFile env dir p).1) := by
  induction ps with
  | nil => rfl
  | cons fp rest ih =>
    simp only [AudioTaskPkg.loadLoop, List.filterMap_cons, ih]
    cases h : (processFile env dir fp).1 <;> simp [h]

theorem AudioTaskPkg.loadLoop_snd (env : Env) (dir : String) (ps : List String) :
    (AudioTaskPkg.loadLoop env dir ps).2 =
      (ps.map (fun p => (processFile env dir p).2)).flatten := by
  induction ps with
  | nil => rfl
  | cons fp rest ih => simp [AudioTaskPkg.loadLoop, ih]

theorem loadLoop_pkg_eq_root (env : Env) (dir : String) (ps : List String) :
    AudioTaskPkg.loadLoop env dir ps = AudioTaskRoot.loadLoop env dir ps := by
  induction ps with
  | nil => rfl
  | cons fp rest ih => simp [AudioTaskPkg.loadLoop, AudioTaskRoot.loadLoop, ih]

theorem processFile_decodeAttempt_mem (env : Env) (dir p q : String) :
    LoadEvent.decodeAttempt q ∈ (processFile env dir p).2 ↔
      q = joinPath dir p ∧ env.pathExists (joinPath dir p) = true ∧
        extSupported (joinPath dir p) = true := by
  by_cases h1 : env.pathExists (joinPath dir p) = true
  · by_cases h2 : extSupported (joinPath dir p) = true
    · cases hd : env.decode (joinPath dir p) <;>
        simp [processFile, h1, h2, hd, eq_comm]
    · simp [processFile, h1, h2]
  · simp [processFile, h1]

theorem processFile_skipUnsupported (env : Env) (dir p : String)
    (h1 : env.pathExists (joinPath dir p) = true)
    (h2 : extSupported (joinPath dir p) = false) :
    (processFile env dir p).2 = [LoadEvent.skipUnsupported (joinPath dir p)] := by
  simp [processFile, h1, h2]

theorem processFile_skipMissing (env : Env) (dir p : String)
    (h1 : env.pathExists (joinPath dir p) = false) :
    (processFile env dir p).2 = [LoadEvent.skipMissing (joinPath dir p)] := by
  simp [processFile, h1]

theorem loadIdxAux_map_snd (env : Env) (dir : String) (ps : List String) : ∀ k : ℕ,
    (loadIdxAux env dir k ps).map Prod.snd = ps.filterMap (fun p => (processFile env dir p).1) := by
  induction ps with
  | nil => intro k; rfl
  | cons fp rest ih =>
    intro k
    simp only [loadIdxAux, List.filterMap_cons]
    cases h : (processFile env dir fp).1 <;> simp [h, ih]

theorem loadIdxAux_fst_lb (env : Env) (dir : String) (ps : List String) : ∀ k : ℕ,
    ∀ q ∈ loadIdxAux env dir k ps, k ≤ q.1 := by
  induction ps with
  | nil => intro k q hq; simp [loadIdxAux] at hq
  | cons fp rest ih =>
    intro k q hq
    simp only [loadIdxAux] at hq
    cases h : (processFile env dir fp).1 with
    | some s =>
      rw [h] at hq
      rcases List.mem_cons.mp hq with h' | h'
      · simp [h']
      · exact le_trans (Nat.le_succ k) (ih (k + 1) q h')
    | none =>
      rw [h] at hq
      exact le_trans (Nat.le_succ k) (ih (k + 1) q hq)

theorem loadIdxAux_pairwise (env : Env) (dir : String) (ps : List String) : ∀ k : ℕ,
    (loadIdxAux env dir k ps).Pairwise (fun a b => a.1 < b.1) := by
  induction ps with
  | nil => intro k; simp [loadIdxAux]
  | cons fp rest ih =>
    intro k
    simp only [loadIdxAux]
    cases h : (processFile env dir fp).1 with
    | some s =>
      refine List.Pairwise.cons ?_ (ih (k + 1))
      intro q hq
      exact lt_of_lt_of_le (Nat.lt_succ_self k) (loadIdxAux_fst_lb env dir rest (k + 1) q hq)
    | none => exact ih (k + 1)

theorem loadIdxAux_spec (env : Env) (dir : String) (ps : List String) : ∀ k : ℕ,
    ∀ q ∈ loadIdxAux env dir k ps, k ≤ q.1 ∧
      ∃ p, ps[q.1 - k]? = some p ∧ (processFile env dir p).1 = some q.2 := by
  induction ps with
  | nil => intro k q hq; simp [loadIdxAux] at hq
  | cons fp rest ih =>
    intro k q hq
    simp only [loadIdxAux] at hq
    cases h : (processFile env dir fp).1 with
    | some s =>
      rw [h] at hq
      rcases List.mem_cons.mp hq with h' | h'
      · subst h'
        exact ⟨le_refl k, fp, by simp, h⟩
      · rcases ih (k + 1) q h' with ⟨hk, p, hp, hps⟩
        refine ⟨le_trans (Nat.le_succ k) hk, p, ?_, hps⟩
        have hq1 : q.1 - k = (q.1 - (k + 1)) + 1 := by omega
        rw [hq1, List.getElem?_cons_succ]
        exact hp
    | none =>
      rw [h] at hq
      rcases ih (k + 1) q hq with ⟨hk, p, hp, hps⟩
      refine ⟨le_trans (Nat.le_succ k) hk, p, ?_, hps⟩
      have hq1 : q.1 - k = (q.1 - (k + 1)) + 1 := by omega
      rw [hq1, List.getElem?_cons_succ]
      exact hp

/-! ### Strictly increasing lists of naturals -/

theorem pairwiseLt_get_lb (l : List ℕ) (hl : l.Pairwise (· < ·)) :
    ∀ (c : ℕ), (∀ x ∈ l, c ≤ x) → ∀ (i : ℕ) (h : i < l.length), c + i ≤ l.get ⟨i, h⟩ := by
  induction l with
  | nil => intro c _ i h; simp at h
  | cons a t ih =>
    intro c hc i h
    rcases List.pairwise_cons.mp hl with ⟨ha, ht⟩
    cases i with
    | zero => simpa using hc a (List.mem_cons_self a t)
    | succ i =>
      have h' : i < t.length := by simpa using h
      have := ih ht (a + 1) (fun x hx => ha x hx) i h'
      have hca : c ≤ a := hc a (List.mem_cons_self a t)
      calc c + (i + 1) ≤ (a + 1) + i := by omega
        _ ≤ t.get ⟨i, h'⟩ := this
        _ = (a :: t).get ⟨i + 1, h⟩ := rfl

theorem pairwiseLt_get_skip (l : List ℕ) (hl : l.Pairwise (· < ·)) (j : ℕ) (hj : j ∉ l) :
    ∀ (c : ℕ), (∀ x ∈ l, c ≤ x) → c ≤ j →
      ∀ (i : ℕ) (h : i < l.length), j ≤ c + i → c + i < l.get ⟨i, h⟩ := by
  induction l with
  | nil => intro c _ _ i h; simp at h
  | cons a t ih =>
    intro c hc hcj i h hji
    rcases List.pairwise_cons.mp hl with ⟨ha, ht⟩
    have hja : j ≠ a := fun hj' => hj (hj' ▸ List.mem_cons_self a t)
    have hjt : j ∉ t := fun hj' => hj (List.mem_cons_of_mem a hj')
    have hca : c ≤ a := hc a (List.mem_cons_self a t)
    cases i with
    | zero =>
      have : j = c := le_antisymm (by simpa using hji) hcj
      have : c ≠ a := by rw [← this]; exact hja
      simpa using lt_of_le_of_ne hca this
    | succ i =>
      have h' : i < t.length := by simpa using h
      rcases le_or_lt j a with hle | hlt
      · have hja' : j < a := lt_of_le_of_ne hle hja
        have := pairwiseLt_get_lb t ht (a + 1) (fun x hx => ha x hx) i h'
        have : c + (i + 1) < t.get ⟨i, h'⟩ := by omega
        simpa using this
      · have := ih ht hjt (a + 1) (fun x hx => ha x hx) hlt i h' (by omega)
        have : c + (i + 1) < t.get ⟨i, h'⟩ := by omega
        simpa using this

/-! ### Plot loop lemmas -/

theorem plotLoopHz_of_valid (pairs : List (String × Sound))
    (h : ∀ q ∈ pairs, valid_audio false q.2.1 = true) :
    plotLoopHz pairs = ⟨pairs, none⟩ := by
  induction pairs with
  | nil => rfl
  | cons q rest ih =>
    have hq := h q (List.mem_cons_self q rest)
    obtain ⟨nm, s⟩ := q
    simp only [plotLoopHz, hq, if_true]
    rw [ih (fun r hr => h r (List.mem_cons_of_mem _ hr))]

theorem plotLoopNote_of_valid (pairs : List (String × Sound))
    (h : ∀ q ∈ pairs, valid_audio false q.2.1 = true) :
    plotLoopNote pairs = ⟨pairs, none⟩ := by
  induction pairs with
  | nil => rfl
  | cons q rest ih =>
    have hq := h q (List.mem_cons_self q rest)
    obtain ⟨nm, s⟩ := q
    simp only [plotLoopNote, hq, if_true]
    rw [ih (fun r hr => h r (List.mem_cons_of_mem _ hr))]

theorem plotLoopHz_halt (pre : List (String × Sound)) (nm : String) (s : Sound)
    (post : List (String × Sound))
    (hpre : ∀ q ∈ pre, valid_audio false q.2.1 = true)
    (hbad : valid_audio false s.1 = false) :
    plotLoopHz (pre ++ (nm, s) :: post) =
      ⟨pre, some ("Invalid audio data for " ++ nm)⟩ := by
  induction pre with
  | nil => simp [plotLoopHz, hbad]
  | cons q rest ih =>
    have hq := hpre q (List.mem_cons_self q rest)
    obtain ⟨nm', s'⟩ := q
    have ih' := ih (fun r hr => hpre r (List.mem_cons_of_mem _ hr))
    simp only [List.cons_append, plotLoopHz, hq, if_true, List.append_eq]
    rw [ih']

/-! ### Claim C2 -/

/-- C2: the validation step guarding each spectrogram computation (modelled
from the spec, section 4.1, invoked by the plotting loops with silent input
not allowed) rejects a waveform exactly when its sample sequence is empty,
contains a non-finite value, or consists entirely of exactly-zero samples;
in particular every all-zero waveform is rejected. -/
theorem C2_validator_rules (y : List PySample) :
    valid_audio false y = false ↔
      y = [] ∨ (∃ s ∈ y, s.isFinite = false) ∨ (∀ s ∈ y, s = PySample.fin 0) := by
  have hpos : valid_audio false y = true ↔
      y ≠ [] ∧ (∀ s ∈ y, s.isFinite = true) ∧ (∃ s ∈ y, s ≠ PySample.fin 0) := by
    simp [valid_audio, List.isEmpty_iff, List.all_eq_true, List.any_eq_true, and_assoc]
  rw [← Bool.not_eq_true, hpos]
  constructor
  · intro h
    by_cases hemp : y = []
    · exact Or.inl hemp
    by_cases hfin : ∀ s ∈ y, s.isFinite = true
    · refine Or.inr (Or.inr ?_)
      intro s hs
      by_contra hne
      exact h ⟨hemp, hfin, s, hs, hne⟩
    · refine Or.inr (Or.inl ?_)
      push_neg at hfin
      rcases hfin with ⟨s, hs, hsf⟩
      exact ⟨s, hs, by simpa using hsf⟩
  · rintro (h | ⟨s, hs, hsf⟩ | h) ⟨h1, h2, h3⟩
    · exact h1 h
    · simp [h2 s hs] at hsf
    · rcases h3 with ⟨s, hs, hne⟩
      exact hne (h s hs)

/-- C2 witness: the characterization evaluated at the all-zero waveform. -/
theorem C2_witness :
    valid_audio false [PySample.fin 0, PySample.fin 0] = false ↔
      ([PySample.fin 0, PySample.fin 0] : List PySample) = [] ∨
      (∃ s ∈ [PySample.fin 0, PySample.fin 0], s.isFinite = false) ∨
      (∀ s ∈ [PySample.fin 0, PySample.fin 0], s = PySample.fin 0) :=
  C2_validator_rules [PySample.fin 0, PySample.fin 0]

/-! ### Claim C4 -/

/-- C4: a three-file batch with one missing path, one existing file with an
unsupported extension, and one successful decode yields exactly one loaded
sound and exactly two skip diagnostics, and the call returns normally. -/
theorem C4_three_file_batch (env : Env) (dir p1 p2 p3 : String) (s : Sound)
    (h1 : env.pathExists (joinPath dir p1) = false)
    (h2e : env.pathExists (joinPath dir p2) = true)
    (h2u : extSupported (joinPath dir p2) = false)
    (h3e : env.pathExists (joinPath dir p3) = true)
    (h3s : extSupported (joinPath dir p3) = true)
    (h3d : env.decode (joinPath dir p3) = Except.ok s) :
    (AudioTaskPkg.load_audio_files env dir [p1, p2, p3]).1 = [s] ∧
    (AudioTaskPkg.load_audio_files env dir [p1, p2, p3]).2 =
      [LoadEvent.skipMissing (joinPath dir p1), LoadEvent.skipUnsupported (joinPath dir p2),
       LoadEvent.decodeAttempt (joinPath dir p3)] ∧
    ((AudioTaskPkg.load_audio_files env dir [p1, p2, p3]).2.countP LoadEvent.isSkipDiag) = 2 := by
  refine ⟨?_, ?_, ?_⟩ <;>
    simp [AudioTaskPkg.load_audio_files, AudioTaskPkg.tqdm, AudioTaskPkg.loadLoop, processFile,
      h1, h2e, h2u, h3e, h3s, h3d, List.countP_cons, LoadEvent.isSkipDiag]

/-- C4 witness: the batch scenario evaluated in the concrete environment. -/
theorem C4_witness :
    envW.pathExists (joinPath "d" "a.wav") = false ∧
    envW.pathExists (joinPath "d" "b.xyz") = true ∧
    extSupported (joinPath "d" "b.xyz") = false ∧
    envW.pathExists (joinPath "d" "c.wav") = true ∧
    extSupported (joinPath "d" "c.wav") = true ∧
    envW.decode (joinPath "d" "c.wav") = Except.ok ([PySample.fin 1], 22050) ∧
    (AudioTaskPkg.load_audio_files envW "d" ["a.wav", "b.xyz", "c.wav"]).1 =
      [([PySample.fin 1], 22050)] ∧
    ((AudioTaskPkg.load_audio_files envW "d" ["a.wav", "b.xyz", "c.wav"]).2.countP
        LoadEvent.isSkipDiag) = 2 := by
  refine ⟨rfl, rfl, rfl, rfl, rfl, rfl, ?_, ?_⟩
  · exact (C4_three_file_batch envW "d" "a.wav" "b.xyz" "c.wav" ([PySample.fin 1], 22050)
      rfl rfl rfl rfl rfl rfl).1
  · exact (C4_three_file_batch envW "d" "a.wav" "b.xyz" "c.wav" ([PySample.fin 1], 22050)
      rfl rfl rfl rfl rfl rfl).2.2

/-! ### Claim C5 -/

/-- C5: the load loop invokes the decoder on a requested file iff the joined
path exists and its extension, lower-cased, is one of the 26 entries of the
whitelist; an existing file with an unsupported extension instead gets a
skip diagnostic and is never decoded. -/
theorem C5_decode_iff_supported (env : Env) (dir : String) (paths : List String)
    (p : String) (hp : p ∈ paths) :
    (LoadEvent.decodeAttempt (joinPath dir p) ∈
        (AudioTaskPkg.load_audio_files env dir paths).2 ↔
      env.pathExists (joinPath dir p) = true ∧ extSupported (joinPath dir p) = true) ∧
    (env.pathExists (joinPath dir p) = true → extSupported (joinPath dir p) = false →
      LoadEvent.skipUnsupported (joinPath dir p) ∈
        (AudioTaskPkg.load_audio_files env dir paths).2) ∧
    SUPPORTED_FORMATS.length = 26 := by
  have hsnd : (AudioTaskPkg.load_audio_files env dir paths).2 =
      (paths.map (fun q => (processFile env dir q).2)).flatten := by
    unfold AudioTaskPkg.load_audio_files AudioTaskPkg.tqdm
    exact AudioTaskPkg.loadLoop_snd env dir paths
  refine ⟨?_, ?_, rfl⟩
  · rw [hsnd]
    constructor
    · intro hmem
      rcases List.mem_flatten.mp hmem with ⟨L, hL, haL⟩
      rcases List.mem_map.mp hL with ⟨q, _, rfl⟩
      rcases (processFile_decodeAttempt_mem env dir q _).mp haL with ⟨heq, hq1, hq2⟩
      rw [heq]
      exact ⟨hq1, hq2⟩
    · rintro ⟨h1, h2⟩
      refine List.mem_flatten.mpr ⟨(processFile env dir p).2, List.mem_map_of_mem _ hp, ?_⟩
      exact (processFile_decodeAttempt_mem env dir p _).mpr ⟨rfl, h1, h2⟩
  · intro h1 h2
    rw [hsnd]
    refine List.mem_flatten.mpr ⟨(processFile env dir p).2, List.mem_map_of_mem _ hp, ?_⟩
    rw [processFile_skipUnsupported env dir p h1 h2]
    exact List.mem_singleton.mpr rfl

/-- C5 witness: the decode-iff-supported property evaluated concretely. -/
theorem C5_witness :
    (LoadEvent.decodeAttempt (joinPath "d" "b.xyz") ∈
        (AudioTaskPkg.load_audio_files envW "d" ["b.xyz", "c.wav"]).2 ↔
      envW.pathExists (joinPath "d" "b.xyz") = true ∧
        extSupported (joinPath "d" "b.xyz") = true) ∧
    (envW.pathExists (joinPath "d" "b.xyz") = true →
      extSupported (joinPath "d" "b.xyz") = false →
      LoadEvent.skipUnsupported (joinPath "d" "b.xyz") ∈
        (AudioTaskPkg.load_audio_files envW "d" ["b.xyz", "c.wav"]).2) ∧
    SUPPORTED_FORMATS.length = 26 :=
  C5_decode_iff_supported envW "d" ["b.xyz", "c.wav"] "b.xyz" (by decide)

/-! ### Claim C7 -/

/-- C7: a keyboard interrupt makes the interactive program exit with status
0, and a failed import of a required library at startup makes it exit with
the non-zero status 1, whatever the run would otherwise have done. -/
theorem C7_exit_codes :
    (∀ (msg : String) (o : MainOutcome),
      runProgram (StartupResult.importFailure msg) o = 1 ∧
        runProgram (StartupResult.importFailure msg) o ≠ 0) ∧
    runProgram StartupResult.ok MainOutcome.interrupted = 0 := by
  refine ⟨fun msg o => ?_, rfl⟩
  have h : runProgram (StartupResult.importFailure msg) o = 1 := by cases o <;> rfl
  exact ⟨h, by rw [h]; exact one_ne_zero⟩

/-! ### Claim C9 -/

/-- C9: the two near-duplicate `load_audio_files` implementations are
equivalent: given the same collaborators, directory and requested files they
return the same list of (samples, sample rate) pairs and emit the same skip
events. -/
theorem C9_load_audio_files_equiv (env : Env) (dir : String) (paths : List String) :
    AudioTaskPkg.load_audio_files env dir paths = AudioTaskRoot.load_audio_files env dir paths := by
  unfold AudioTaskPkg.load_audio_files AudioTaskRoot.load_audio_files AudioTaskPkg.tqdm
  exact loadLoop_pkg_eq_root env dir paths

/-! ### Claim C1 -/

/-- C1 counterexample: in this batch the first sound fails validation
(all-zero) and the second is valid, yet the Hz plotting function raises
`AudioDataNotValid` on the first sound and the second — later and valid —
is never rendered; so a per-sound failure does terminate processing of the
remaining sounds, refuting the claim. -/
theorem C1_counterexample :
    plot_spectogram_hz ["Sound a", "Sound b"]
        [([PySample.fin 0], 1), ([PySample.fin 1], 1)] =
      ⟨[], some "Invalid audio data for Sound a"⟩ ∧
    valid_audio false [PySample.fin 1] = true ∧
    ("Sound b", (([PySample.fin 1], 1) : Sound)) ∉
      (plot_spectogram_hz ["Sound a", "Sound b"]
          [([PySample.fin 0], 1), ([PySample.fin 1], 1)]).rendered :=
  ⟨by decide, by decide, by decide⟩

/-- C1 (amended): during loading, a per-file failure never terminates the
batch — every requested file contributes its own result and events
independently of the other files' outcomes, and a missing file is reported
by a diagnostic naming its path — but in the plotting stage a validation
rejection raises `AudioDataNotValid` naming the failed sound and terminates
processing of that and all remaining sounds; and a required-library import
failure at startup aborts the whole run with a non-zero exit status. -/
theorem C1_load_continues_plot_aborts
    (env : Env) (dir : String) (paths : List String) (p : String) (hp : p ∈ paths)
    (hmiss : env.pathExists (joinPath dir p) = false)
    (pre : List (String × Sound)) (nm : String) (s : Sound) (post : List (String × Sound))
    (hpre : ∀ q ∈ pre, valid_audio false q.2.1 = true)
    (hbad : valid_audio false s.1 = false) :
    ((AudioTaskPkg.load_audio_files env dir paths).1 =
        paths.filterMap (fun q => (processFile env dir q).1)) ∧
    ((AudioTaskPkg.load_audio_files env dir paths).2 =
        (paths.map (fun q => (processFile env dir q).2)).flatten) ∧
    (LoadEvent.skipMissing (joinPath dir p) ∈ (AudioTaskPkg.load_audio_files env dir paths).2) ∧
    (plotLoopHz (pre ++ (nm, s) :: post) =
        ⟨pre, some ("Invalid audio data for " ++ nm)⟩) ∧
    (∀ (msg : String) (o : MainOutcome), runProgram (StartupResult.importFailure msg) o ≠ 0) := by
  have hfst : (AudioTaskPkg.load_audio_files env dir paths).1 =
      paths.filterMap (fun q => (processFile env dir q).1) := by
    unfold AudioTaskPkg.load_audio_files AudioTaskPkg.tqdm
    exact AudioTaskPkg.loadLoop_fst env dir paths
  have hsnd : (AudioTaskPkg.load_audio_files env dir paths).2 =
      (paths.map (fun q => (processFile env dir q).2)).flatten := by
    unfold AudioTaskPkg.load_audio_files AudioTaskPkg.tqdm
    exact AudioTaskPkg.loadLoop_snd env dir paths
  refine ⟨hfst, hsnd, ?_, plotLoopHz_halt pre nm s post hpre hbad, fun msg o => ?_⟩
  · rw [hsnd]
    refine List.mem_flatten.mpr ⟨(processFile env dir p).2, List.mem_map_of_mem _ hp, ?_⟩
    rw [processFile_skipMissing env dir p hmiss]
    exact List.mem_singleton.mpr rfl
  · cases o <;> simp [runProgram]

/-- C1 witness: the amended statement evaluated at a concrete batch with a
missing file and a plot batch whose second sound is invalid. -/
theorem C1_witness :
    ("a.wav" ∈ ["a.wav", "c.wav"]) ∧
    envW.pathExists (joinPath "d" "a.wav") = false ∧
    (∀ q ∈ [("Sound c", (([PySample.fin 1], 22050) : Sound))],
      valid_audio false q.2.1 = true) ∧
    valid_audio false ([PySample.fin 0] : List PySample) = false ∧
    (LoadEvent.skipMissing (joinPath "d" "a.wav") ∈
      (AudioTaskPkg.load_audio_files envW "d" ["a.wav", "c.wav"]).2) ∧
    (plotLoopHz ([("Sound c", (([PySample.fin 1], 22050) : Sound))] ++
        ("Sound z", (([PySample.fin 0], 1) : Sound)) ::
          [("Sound g", (([PySample.fin 2], 1) : Sound))]) =
      ⟨[("Sound c", (([PySample.fin 1], 22050) : Sound))],
        some ("Invalid audio data for " ++ "Sound z")⟩) := by
  refine ⟨by decide, by decide, by decide, by decide, ?_, ?_⟩
  · exact (C1_load_continues_plot_aborts envW "d" ["a.wav", "c.wav"] "a.wav" (by decide)
      (by decide) [("Sound c", (([PySample.fin 1], 22050) : Sound))] "Sound z"
      ([PySample.fin 0], 1) [("Sound g", (([PySample.fin 2], 1) : Sound))]
      (by decide) (by decide)).2.2.1
  · exact (C1_load_continues_plot_aborts envW "d" ["a.wav", "c.wav"] "a.wav" (by decide)
      (by decide) [("Sound c", (([PySample.fin 1], 22050) : Sound))] "Sound z"
      ([PySample.fin 0], 1) [("Sound g", (([PySample.fin 2], 1) : Sound))]
      (by decide) (by decide)).2.2.2.1

/-! ### Claim C10 -/

theorem pairwiseLt_avoid_length (l : List ℕ) (hl : l.Pairwise (· < ·)) (N j : ℕ)
    (hN : ∀ x ∈ l, x < N) (hjN : j < N) (hj : j ∉ l) : l.length < N := by
  have hnd : l.Nodup := hl.imp Nat.ne_of_lt
  have hsub : l.toFinset ⊆ (Finset.range N).erase j := by
    intro x hx
    have hxl := List.mem_toFinset.mp hx
    exact Finset.mem_erase.mpr ⟨fun he => hj (he ▸ hxl), Finset.mem_range.mpr (hN x hxl)⟩
  have hcard := Finset.card_le_card hsub
  rw [List.toFinset_card_of_nodup hnd, Finset.card_erase_of_mem (Finset.mem_range.mpr hjN),
    Finset.card_range] at hcard
  omega

/-- C10: the plotting functions pair labels with sounds purely positionally
via `zip` over the compacted loaded list — when all loaded sounds pass
validation the rendered list is exactly the zip, pair `i` holding the `i`-th
label and the `i`-th loaded sound, and its length is the minimum of the two
lengths, so trailing labels are silently unrendered; each loaded sound
originates from the requested file whose index `loadIdx` records, and when
the requested file at index `j` was skipped, every sound displayed at a
position at or past `j` originates from a strictly later requested file
than the one its label was built from. -/
theorem C10_positional_zip_pairing (env : Env) (dir : String) (paths : List String) (j : ℕ)
    (hvalid : ∀ s ∈ (AudioTaskPkg.load_audio_files env dir paths).1,
      valid_audio false s.1 = true)
    (hj : j < paths.length)
    (hskip : ∀ q ∈ loadIdx env dir paths, q.1 ≠ j) :
    ((plot_spectogram_hz (mkSoundNames paths)
        (AudioTaskPkg.load_audio_files env dir paths).1).rendered =
      (mkSoundNames paths).zip (AudioTaskPkg.load_audio_files env dir paths).1) ∧
    ((plot_spectogram_note_scale (mkSoundNames paths)
        (AudioTaskPkg.load_audio_files env dir paths).1).rendered =
      (mkSoundNames paths).zip (AudioTaskPkg.load_audio_files env dir paths).1) ∧
    (∀ i, i < (mkSoundNames paths).length →
      i < (AudioTaskPkg.load_audio_files env dir paths).1.length →
      ∃ nm s, (mkSoundNames paths)[i]? = some nm ∧
        (AudioTaskPkg.load_audio_files env dir paths).1[i]? = some s ∧
        ((mkSoundNames paths).zip (AudioTaskPkg.load_audio_files env dir paths).1)[i]? =
          some (nm, s)) ∧
    ((plot_spectogram_hz (mkSoundNames paths)
        (AudioTaskPkg.load_audio_files env dir paths).1).rendered.length =
      min (mkSoundNames paths).length
        (AudioTaskPkg.load_audio_files env dir paths).1.length) ∧
    ((AudioTaskPkg.load_audio_files env dir paths).1 =
      (loadIdx env dir paths).map Prod.snd) ∧
    (∀ q ∈ loadIdx env dir paths,
      ∃ p, paths[q.1]? = some p ∧ (processFile env dir p).1 = some q.2) ∧
    ((AudioTaskPkg.load_audio_files env dir paths).1.length < paths.length) ∧
    (∀ i (hi : i < (loadIdx env dir paths).length), j ≤ i →
      i < ((loadIdx env dir paths).get ⟨i, hi⟩).1) := by
  have hzipv : ∀ q ∈ (mkSoundNames paths).zip (AudioTaskPkg.load_audio_files env dir paths).1,
      valid_audio false q.2.1 = true := by
    rintro ⟨nm, s⟩ hq
    exact hvalid s (List.of_mem_zip hq).2
  have h1 : (plot_spectogram_hz (mkSoundNames paths)
      (AudioTaskPkg.load_audio_files env dir paths).1).rendered =
      (mkSoundNames paths).zip (AudioTaskPkg.load_audio_files env dir paths).1 := by
    unfold plot_spectogram_hz
    rw [plotLoopHz_of_valid _ hzipv]
  have h2 : (plot_spectogram_note_scale (mkSoundNames paths)
      (AudioTaskPkg.load_audio_files env dir paths).1).rendered =
      (mkSoundNames paths).zip (AudioTaskPkg.load_audio_files env dir paths).1 := by
    unfold plot_spectogram_note_scale
    rw [plotLoopNote_of_valid _ hzipv]
  have h5 : (AudioTaskPkg.load_audio_files env dir paths).1 =
      (loadIdx env dir paths).map Prod.snd := by
    unfold AudioTaskPkg.load_audio_files AudioTaskPkg.tqdm loadIdx
    rw [AudioTaskPkg.loadLoop_fst, loadIdxAux_map_snd]
  have h6 : ∀ q ∈ loadIdx env dir paths,
      ∃ p, paths[q.1]? = some p ∧ (processFile env dir p).1 = some q.2 := by
    intro q hq
    rcases loadIdxAux_spec env dir paths 0 q hq with ⟨-, p, hp, hps⟩
    rw [Nat.sub_zero] at hp
    exact ⟨p, hp, hps⟩
  have hpwf : ((loadIdx env dir paths).map Prod.fst).Pairwise (· < ·) := by
    rw [List.pairwise_map]
    exact loadIdxAux_pairwise env dir paths 0
  have hNf : ∀ x ∈ (loadIdx env dir paths).map Prod.fst, x < paths.length := by
    intro x hx
    rcases List.mem_map.mp hx with ⟨q, hq, rfl⟩
    rcases h6 q hq with ⟨p, hp, -⟩
    exact (List.getElem?_eq_some.mp hp).1
  have hjf : j ∉ (loadIdx env dir paths).map Prod.fst := by
    intro hmem
    rcases List.mem_map.mp hmem with ⟨q, hq, hq1⟩
    exact hskip q hq hq1
  have h7 : (AudioTaskPkg.load_audio_files env dir paths).1.length < paths.length := by
    rw [h5, List.length_map]
    have := pairwiseLt_avoid_length _ hpwf paths.length j hNf hj hjf
    rwa [List.length_map] at this
  refine ⟨h1, h2, ?_, ?_, h5, h6, h7, ?_⟩
  · intro i hn hl
    have hz : i < ((mkSoundNames paths).zip
        (AudioTaskPkg.load_audio_files env dir paths).1).length := by
      rw [List.length_zip]
      omega
    refine ⟨(mkSoundNames paths)[i], (AudioTaskPkg.load_audio_files env dir paths).1[i],
      List.getElem?_eq_getElem hn, List.getElem?_eq_getElem hl, ?_⟩
    rw [List.getElem?_eq_getElem hz, List.getElem_zip]
  · rw [h1, List.length_zip]
  · intro i hi hji
    have hlen : i < ((loadIdx env dir paths).map Prod.fst).length := by
      rwa [List.length_map]
    have := pairwiseLt_get_skip _ hpwf j hjf 0 (fun x _ => Nat.zero_le x) (Nat.zero_le j)
      i hlen (by omega)
    have hget : ((loadIdx env dir paths).map Prod.fst).get ⟨i, hlen⟩ =
        ((loadIdx env dir paths).get ⟨i, hi⟩).1 := by
      simp [List.get_eq_getElem, List.getElem_map]
    omega

/-- C10 witness: concrete batch `[c.wav, b.xyz, e.wav]` in which the middle
file (index 1) is skipped — the rendered list zips the three labels with the
two loaded sounds, the sound displayed at position 1 originates from
requested file 2, and the third label is never rendered. -/
theorem C10_witness :
    (∀ s ∈ (AudioTaskPkg.load_audio_files envW "d" ["c.wav", "b.xyz", "e.wav"]).1,
      valid_audio false s.1 = true) ∧
    1 < (["c.wav", "b.xyz", "e.wav"] : List String).length ∧
    (∀ q ∈ loadIdx envW "d" ["c.wav", "b.xyz", "e.wav"], q.1 ≠ 1) ∧
    ((plot_spectogram_hz (mkSoundNames ["c.wav", "b.xyz", "e.wav"])
        (AudioTaskPkg.load_audio_files envW "d" ["c.wav", "b.xyz", "e.wav"]).1).rendered =
      (mkSoundNames ["c.wav", "b.xyz", "e.wav"]).zip
        (AudioTaskPkg.load_audio_files envW "d" ["c.wav", "b.xyz", "e.wav"]).1) ∧
    ((AudioTaskPkg.load_audio_files envW "d" ["c.wav", "b.xyz", "e.wav"]).1.length <
      (["c.wav", "b.xyz", "e.wav"] : List String).length) ∧
    (∀ i (hi : i < (loadIdx envW "d" ["c.wav", "b.xyz", "e.wav"]).length), 1 ≤ i →
      i < ((loadIdx envW "d" ["c.wav", "b.xyz", "e.wav"]).get ⟨i, hi⟩).1) := by
  refine ⟨by decide, by decide, by decide, ?_, ?_, ?_⟩
  · exact (C10_positional_zip_pairing envW "d" ["c.wav", "b.xyz", "e.wav"] 1
      (by decide) (by decide) (by decide)).1
  · exact (C10_positional_zip_pairing envW "d" ["c.wav", "b.xyz", "e.wav"] 1
      (by decide) (by decide) (by decide)).2.2.2.2.2.2.1
  · exact (C10_positional_zip_pairing envW "d" ["c.wav", "b.xyz", "e.wav"] 1
      (by decide) (by decide) (by decide)).2.2.2.2.2.2.2

/-! ### Claim C8 -/

/-- C8: in note-axis mode (modelled from the spec, section 4.4) a frequency
bin landing exactly on 440 Hz is labelled "A4" with cents offset 0, and bin
0 is assigned the sentinel, displayed "—", by the `k = 0` branch, so
`log2 0` is never evaluated for it. -/
theorem C8_note_mapping (frameSize sampleRate k : ℕ) (hk : k ≠ 0)
    (h440 : binHz frameSize sampleRate k = 440) :
    mapBinNote frameSize sampleRate k = NoteLabel.note "A4" 0 ∧
    mapBinNote frameSize sampleRate 0 = NoteLabel.sentinel ∧
    NoteLabel.display (mapBinNote frameSize sampleRate 0) = "—" := by
  refine ⟨?_, rfl, rfl⟩
  rw [mapBinNote, if_neg hk, h440]
  have h1 : (440 : ℝ) / 440 = 1 := by norm_num
  simp only [hzToNote, noteNumber, h1, Real.logb_one, mul_zero, add_zero]
  have hr : round (69 : ℝ) = 69 := by norm_num [round_eq]
  rw [hr]
  have hname : noteName 69 = "A4" := by decide
  rw [hname]
  congr 1
  push_cast
  norm_num

/-- C8 witness: with frame size 2 and sample rate 880, bin 1 lands exactly
on 440 Hz and is labelled "A4" at 0 cents; bin 0 gets the sentinel. -/
theorem C8_witness :
    (1 : ℕ) ≠ 0 ∧ binHz 2 880 1 = 440 ∧
    mapBinNote 2 880 1 = NoteLabel.note "A4" 0 ∧
    mapBinNote 2 880 0 = NoteLabel.sentinel := by
  refine ⟨by decide, by norm_num [binHz], ?_, ?_⟩
  · exact (C8_note_mapping 2 880 1 (by decide) (by norm_num [binHz])).1
  · exact (C8_note_mapping 2 880 1 (by decide) (by norm_num [binHz])).2.1

/-! ### Helper lemmas for the decibel matrix -/

theorem foldr_max_nonneg (l : List ℝ) : 0 ≤ l.foldr max 0 := by
  induction l with
  | nil => exact le_refl 0
  | cons a t ih => exact le_trans ih (le_max_right a _)

theorem le_foldr_max (r : List ℝ) (b : ℝ) (hb : b ∈ r) : b ≤ r.foldr max 0 := by
  induction r with
  | nil => simp at hb
  | cons a t ih =>
    rcases List.mem_cons.mp hb with h | h
    · subst h
      rw [List.foldr_cons]
      exact le_max_left b _
    · exact le_trans (ih h) (le_max_right a _)

theorem foldr_max_mem (l : List ℝ) (h : l.foldr max 0 ≠ 0) : l.foldr max 0 ∈ l := by
  induction l with
  | nil => simp at h
  | cons a t ih =>
    rcases max_choice a (t.foldr max 0) with hc | hc
    · rw [List.foldr_cons, hc]
      exact List.mem_cons_self a t
    · rw [List.foldr_cons] at h ⊢
      rw [hc] at h ⊢
      exact List.mem_cons_of_mem a (ih h)

theorem stftMag_nonneg (frameSize hop : ℕ) (w : ℕ → ℝ) (x : List ℝ) :
    ∀ m ∈ (stftMag frameSize hop w x).flatten, 0 ≤ m := by
  intro m hm
  rcases List.mem_flatten.mp hm with ⟨row, hrow, hmrow⟩
  rcases List.mem_map.mp hrow with ⟨f, -, rfl⟩
  rcases List.mem_map.mp hmrow with ⟨z, -, rfl⟩
  exact Complex.abs.nonneg z

theorem maxMag_nonneg (m : List (List ℝ)) : 0 ≤ maxMag m := foldr_max_nonneg _

theorem le_maxMag (m : List (List ℝ)) (x : ℝ) (hx : x ∈ m.flatten) : x ≤ maxMag m :=
  le_foldr_max _ x hx

theorem maxMag_mem (m : List (List ℝ)) (h : maxMag m ≠ 0) : maxMag m ∈ m.flatten :=
  foldr_max_mem _ h

theorem dbFloor_le_dbEntry (m ref : ℝ) : ((dbFloor : ℝ) : EReal) ≤ dbEntry m ref :=
  le_max_left _ _

theorem dbEntry_le_zero (m ref : ℝ) (hm : 0 ≤ m) (hmr : m ≤ ref) :
    dbEntry m ref ≤ ((0 : ℝ) : EReal) := by
  rcases le_or_lt m 0 with h0 | h0
  · rw [dbEntry, rawDb, if_pos h0, max_eq_left bot_le]
    exact EReal.coe_le_coe_iff.mpr (by norm_num [dbFloor])
  · rw [dbEntry, rawDb, if_neg (not_le.mpr h0)]
    refine max_le (EReal.coe_le_coe_iff.mpr (by norm_num [dbFloor])) ?_
    refine EReal.coe_le_coe_iff.mpr ?_
    have href : 0 < ref := lt_of_lt_of_le h0 hmr
    have hdiv0 : 0 ≤ m / ref := div_nonneg hm (le_of_lt href)
    have hdiv1 : m / ref ≤ 1 := (div_le_one href).mpr hmr
    have := Real.logb_nonpos (b := 10) (by norm_num) hdiv0 hdiv1
    nlinarith

theorem dbEntry_ne_bot (m ref : ℝ) : dbEntry m ref ≠ ⊥ :=
  ne_of_gt (lt_of_lt_of_le (EReal.bot_lt_coe dbFloor) (le_max_left _ _))

theorem dbEntry_ne_top (m ref : ℝ) (hm : 0 ≤ m) (hmr : m ≤ ref) : dbEntry m ref ≠ ⊤ :=
  ne_of_lt (lt_of_le_of_lt (dbEntry_le_zero m ref hm hmr) (EReal.coe_lt_top 0))

theorem dbEntry_self (ref : ℝ) (h : 0 < ref) : dbEntry ref ref = ((0 : ℝ) : EReal) := by
  rw [dbEntry, rawDb, if_neg (not_le.mpr h), div_self (ne_of_gt h), Real.logb_one, mul_zero]
  exact max_eq_right (EReal.coe_le_coe_iff.mpr (by norm_num [dbFloor]))

theorem dbEntry_of_zero (ref : ℝ) : dbEntry 0 ref = ((dbFloor : ℝ) : EReal) := by
  rw [dbEntry, rawDb, if_pos (le_refl (0 : ℝ)), max_eq_left bot_le]

theorem computeSpectrogram_entries_flatten (frameSize hop : ℕ) (w : ℕ → ℝ) (x : List ℝ) :
    (computeSpectrogram frameSize hop w x).entries.flatten =
      (stftMag frameSize hop w x).flatten.map
        (fun m => dbEntry m (specRef frameSize hop w x)) := by
  simp only [computeSpectrogram]
  exact (List.map_flatten _ _).symm

/-! ### Claim C3 -/

/-- C3: for a validated waveform (spectrogram engine modelled from the spec,
section 4.3) every entry of the decibel matrix lies between the configured
floor of -80 dB and 0 dB and is finite, and unless the input is degenerate
(all frames silent) the value 0 dB is attained, so the global maximum is
exactly 0 dB. -/
theorem C3_db_bounds (frameSize hop : ℕ) (w : ℕ → ℝ) (y : List PySample)
    (hn : 0 < frameSize) (hh : 0 < hop) (hhn : hop ≤ frameSize)
    (hv : valid_audio false y = true) :
    (∀ e ∈ (computeSpectrogram frameSize hop w (y.map PySample.toReal)).entries.flatten,
      ((dbFloor : ℝ) : EReal) ≤ e ∧ e ≤ ((0 : ℝ) : EReal) ∧ e ≠ ⊥ ∧ e ≠ ⊤) ∧
    (¬ (computeSpectrogram frameSize hop w (y.map PySample.toReal)).degenerate →
      ((0 : ℝ) : EReal) ∈
        (computeSpectrogram frameSize hop w (y.map PySample.toReal)).entries.flatten) := by
  set x := y.map PySample.toReal with hx
  have hflat := computeSpectrogram_entries_flatten frameSize hop w x
  have hdeg : (computeSpectrogram frameSize hop w x).degenerate =
      (maxMag (stftMag frameSize hop w x) = 0) := rfl
  constructor
  · intro e he
    rw [hflat] at he
    rcases List.mem_map.mp he with ⟨m, hm, rfl⟩
    have hm0 : 0 ≤ m := stftMag_nonneg frameSize hop w x m hm
    have hmr : m ≤ specRef frameSize hop w x := by
      by_cases hz : maxMag (stftMag frameSize hop w x) = 0
      · rw [specRef, if_pos hz]
        have hm1 : m ≤ 0 := hz ▸ le_maxMag _ m hm
        have hm' : m = 0 := le_antisymm hm1 hm0
        rw [hm']
        norm_num [epsilonRef]
      · rw [specRef, if_neg hz]
        exact le_maxMag _ m hm
    exact ⟨dbFloor_le_dbEntry m _, dbEntry_le_zero m _ hm0 hmr, dbEntry_ne_bot m _,
      dbEntry_ne_top m _ hm0 hmr⟩
  · intro hnd
    rw [hdeg] at hnd
    have hmem := maxMag_mem _ hnd
    have hpos : 0 < maxMag (stftMag frameSize hop w x) :=
      lt_of_le_of_ne (maxMag_nonneg _) (Ne.symm hnd)
    have href : specRef frameSize hop w x = maxMag (stftMag frameSize hop w x) := by
      rw [specRef, if_neg hnd]
    rw [hflat]
    refine List.mem_map.mpr ⟨maxMag (stftMag frameSize hop w x), hmem, ?_⟩
    rw [href, dbEntry_self _ hpos]

/-- C3 witness: the bounds evaluated at the one-sample waveform `[1]` with
frame size 1 and hop 1. -/
theorem C3_witness :
    ((0 : ℕ) < 1 ∧ (0 : ℕ) < 1 ∧ (1 : ℕ) ≤ 1 ∧
      valid_audio false [PySample.fin 1] = true) ∧
    (∀ e ∈ (computeSpectrogram 1 1 (fun _ => (1 : ℝ))
        ([PySample.fin 1].map PySample.toReal)).entries.flatten,
      ((dbFloor : ℝ) : EReal) ≤ e ∧ e ≤ ((0 : ℝ) : EReal) ∧ e ≠ ⊥ ∧ e ≠ ⊤) ∧
    (¬ (computeSpectrogram 1 1 (fun _ => (1 : ℝ))
        ([PySample.fin 1].map PySample.toReal)).degenerate →
      ((0 : ℝ) : EReal) ∈ (computeSpectrogram 1 1 (fun _ => (1 : ℝ))
        ([PySample.fin 1].map PySample.toReal)).entries.flatten) := by
  refine ⟨⟨Nat.one_pos, Nat.one_pos, le_refl 1, rfl⟩, ?_, ?_⟩
  · exact (C3_db_bounds 1 1 (fun _ => (1 : ℝ)) [PySample.fin 1] Nat.one_pos Nat.one_pos
      (le_refl 1) rfl).1
  · exact (C3_db_bounds 1 1 (fun _ => (1 : ℝ)) [PySample.fin 1] Nat.one_pos Nat.one_pos
      (le_refl 1) rfl).2

/-- A concrete non-degenerate input: the unit sample with frame size 1 and
the unit window has peak magnitude 1, so the degenerate case of the engine
is not universal. -/
theorem stftMag_unit_example : maxMag (stftMag 1 1 (fun _ => (1 : ℝ)) [(1 : ℝ)]) = 1 := by
  norm_num [maxMag, stftMag, frames, windowedFrame, dft, List.range_succ,
    Finset.sum_range_one]

/-! ### Claim C6 -/

/-- C6: when every frame is silent (peak magnitude 0) the engine (modelled
from the spec, section 4.3) reports the sound as degenerate, substitutes the
small positive epsilon as the reference instead of dividing by zero, and
still produces a finite matrix — every entry equals the -80 dB floor, and
none is minus infinity. -/
theorem C6_degenerate_epsilon (frameSize hop : ℕ) (w : ℕ → ℝ) (x : List ℝ)
    (hsilent : maxMag (stftMag frameSize hop w x) = 0) :
    (computeSpectrogram frameSize hop w x).degenerate ∧
    (computeSpectrogram frameSize hop w x).reference = epsilonRef ∧
    0 < (computeSpectrogram frameSize hop w x).reference ∧
    (∀ e ∈ (computeSpectrogram frameSize hop w x).entries.flatten,
      e = ((dbFloor : ℝ) : EReal) ∧ e ≠ ⊥ ∧ e ≠ ⊤) := by
  have href : (computeSpectrogram frameSize hop w x).reference = epsilonRef := by
    show specRef frameSize hop w x = epsilonRef
    rw [specRef, if_pos hsilent]
  refine ⟨hsilent, href, ?_, ?_⟩
  · rw [href]
    norm_num [epsilonRef]
  · intro e he
    rw [computeSpectrogram_entries_flatten] at he
    rcases List.mem_map.mp he with ⟨m, hm, rfl⟩
    have hm0 : 0 ≤ m := stftMag_nonneg frameSize hop w x m hm
    have hm1 : m ≤ 0 := hsilent ▸ le_maxMag _ m hm
    have hm' : m = 0 := le_antisymm hm1 hm0
    rw [hm', dbEntry_of_zero]
    exact ⟨rfl, EReal.coe_ne_bot _, EReal.coe_ne_top _⟩

/-- C6 witness: the all-silent one-sample waveform `[0]` with frame size 1,
hop 1 and the unit window. -/
theorem C6_witness :
    maxMag (stftMag 1 1 (fun _ => (1 : ℝ)) [(0 : ℝ)]) = 0 ∧
    (computeSpectrogram 1 1 (fun _ => (1 : ℝ)) [(0 : ℝ)]).degenerate ∧
    (computeSpectrogram 1 1 (fun _ => (1 : ℝ)) [(0 : ℝ)]).reference = epsilonRef ∧
    (∀ e ∈ (computeSpectrogram 1 1 (fun _ => (1 : ℝ)) [(0 : ℝ)]).entries.flatten,
      e = ((dbFloor : ℝ) : EReal) ∧ e ≠ ⊥ ∧ e ≠ ⊤) := by
  have h0 : maxMag (stftMag 1 1 (fun _ => (1 : ℝ)) [(0 : ℝ)]) = 0 := by
    norm_num [maxMag, stftMag, frames, windowedFrame, dft, List.range_succ,
      Finset.sum_range_one]
  exact ⟨h0, (C6_degenerate_epsilon 1 1 _ _ h0).1, (C6_degenerate_epsilon 1 1 _ _ h0).2.1,
    (C6_degenerate_epsilon 1 1 _ _ h0).2.2.2⟩
